import Mathlib

/-!
Verification of the lakedrop ingestion/query core (src/src-tauri/src/lib.rs)
against its natural-language specification.

The Rust source is shallowly embedded below.  External library calls (the
polars readers, the calamine workbook parser, the SQL evaluator, filesystem
reads) are modelled as oracle fields of an `Env` record: each oracle value is
the outcome the external call would produce.  All logic that lives in the
repository itself — extension parsing, the format table, the Excel
materialization loop, the commit discipline on session state, row-count
fail-soft, the value-coercion table, the post-execution row limit — is
translated directly from the source.
-/

namespace Lakedrop

/-- Mirror of `enum FileKind` (lib.rs lines 23-31). -/
inductive FileKind
  | Parquet
  | Csv
  | JsonLines
  | Json
  | Arrow
  | Excel
deriving DecidableEq

/-- Mirror of `struct FileSpec` (lib.rs lines 33-37). -/
structure FileSpec where
  kind : FileKind
  compressed : Bool
  extension : String

/-- Mirror of calamine `Data` cells as matched by `excel_cell_to_string`
(lib.rs lines 125-137).  The `DateTime` and `Error` payloads are modelled by
the text the source renders them to (`to_string` / debug formatting), since
only that rendering flows onward. -/
inductive XlsData
  | Empty
  | Str (value : String)
  | FloatV (value : Float)
  | IntV (value : Int)
  | BoolV (value : Bool)
  | DateTime (rendered : String)
  | DateTimeIso (value : String)
  | DurationIso (value : String)
  | ErrorV (debugRendered : String)

/-- Mirror of `excel_cell_to_string` (lib.rs lines 125-137): every non-empty
cell is rendered to text, an empty cell becomes `none`. -/
def excel_cell_to_string : XlsData → Option String
  | .Empty => none
  | .Str v => some v
  | .FloatV v => some (toString v)
  | .IntV v => some (toString v)
  | .BoolV v => some (toString v)
  | .DateTime r => some r
  | .DateTimeIso v => some v
  | .DurationIso v => some v
  | .ErrorV d => some d

/-- Polars time units (payload detail of datetime/duration values). -/
inductive TimeUnitT
  | ns
  | us
  | ms

/-- Mirror of the polars `AnyValue` variants matched by `any_value_to_json`
(lib.rs lines 291-316).  Machine integers are carried as `Int`/`Nat`; the
`Float32` payload is carried as the widened 64-bit float the source casts it
to; `ListV`/`Other` carry the `Display` rendering the source falls back to. -/
inductive AnyValue
  | Null
  | Boolean (v : Bool)
  | Int8 (v : Int)
  | Int16 (v : Int)
  | Int32 (v : Int)
  | Int64 (v : Int)
  | UInt8 (v : Nat)
  | UInt16 (v : Nat)
  | UInt32 (v : Nat)
  | UInt64 (v : Nat)
  | Float32 (v : Float)
  | Float64 (v : Float)
  | StringV (v : String)
  | StringOwned (v : String)
  | Binary (v : List Nat)
  | BinaryOwned (v : List Nat)
  | Date (v : Int)
  | Datetime (v : Int) (tu : TimeUnitT) (tz : Option String)
  | Time (v : Int)
  | Duration (v : Int) (tu : TimeUnitT)
  | ListV (rendered : String)
  | Other (rendered : String)

/-- Mirror of `serde_json::Number`: an exact unsigned 64-bit integer, an exact
negative 64-bit integer, or a finite double. -/
inductive JNumber
  | PosInt (v : Nat)
  | NegInt (v : Int)
  | FloatN (v : Float)

/-- Mirror of `serde_json::Value` restricted to the variants the source can
produce (null, booleans, numbers, strings). -/
inductive JValue
  | Null
  | BoolV (v : Bool)
  | NumberV (v : JNumber)
  | StrV (v : String)

/-- Numeric reading of a `JNumber`: exact integer content, if any. -/
def JNumber.toInt? : JNumber → Option Int
  | .PosInt v => some (v : Int)
  | .NegInt v => some v
  | .FloatN _ => none

/-- serde_json `From<i64>`: negative values keep the signed representation,
non-negative values are stored as unsigned — the value is preserved exactly. -/
def jnumber_from_i64 (v : Int) : JNumber :=
  if v < 0 then .NegInt v else .PosInt v.toNat

/-- serde_json `From<f64>`: non-finite doubles map to JSON null. -/
def jvalue_from_f64 (v : Float) : JValue :=
  if v.isFinite then .NumberV (.FloatN v) else .Null

/-- Rust `format!("{value:?}")` on a byte slice. -/
def bytes_debug (bs : List Nat) : String :=
  "[" ++ String.intercalate ", " (bs.map toString) ++ "]"

/-- Mirror of `any_value_to_json` (lib.rs lines 291-316). -/
def any_value_to_json : AnyValue → JValue
  | .Null => .Null
  | .Boolean v => .BoolV v
  | .Int8 v => .NumberV (jnumber_from_i64 v)
  | .Int16 v => .NumberV (jnumber_from_i64 v)
  | .Int32 v => .NumberV (jnumber_from_i64 v)
  | .Int64 v => .NumberV (jnumber_from_i64 v)
  | .UInt8 v => .NumberV (.PosInt v)
  | .UInt16 v => .NumberV (.PosInt v)
  | .UInt32 v => .NumberV (.PosInt v)
  | .UInt64 v => .NumberV (.PosInt v)
  | .Float32 v => jvalue_from_f64 v
  | .Float64 v => jvalue_from_f64 v
  | .StringV v => .StrV v
  | .StringOwned v => .StrV v
  | .Binary v => .StrV (bytes_debug v)
  | .BinaryOwned v => .StrV (bytes_debug v)
  | .Date v => .StrV (toString v)
  | .Datetime v _ _ => .StrV (toString v)
  | .Time v => .StrV (toString v)
  | .Duration v _ => .StrV (toString v)
  | .ListV r => .StrV r
  | .Other r => .StrV r

/-- One polars `Series`: a name, a rendered dtype and the cell values. -/
structure Column where
  name : String
  dtype : String
  values : List AnyValue

/-- A materialized polars `DataFrame`, column-major as in the library. -/
structure DF where
  cols : List Column

/-- polars `DataFrame::height`: length of the first column, zero if none. -/
def DF.height (df : DF) : Nat :=
  match df.cols with
  | [] => 0
  | c :: _ => c.values.length

/-- polars `Series::get(i)`: errors past the end of the series. -/
def Column.get (c : Column) (i : Nat) : Except String AnyValue :=
  match c.values[i]? with
  | some v => .ok v
  | none => .error "index out of bounds"

/-- polars `DataFrame::head(Some n)`: per-column prefix take. -/
def DF.head (df : DF) (n : Nat) : DF :=
  ⟨df.cols.map (fun c => ⟨c.name, c.dtype, c.values.take n⟩)⟩

/-- polars `DataFrame::schema` rendered as (name, dtype) pairs, as
`schema_to_fields` consumes it (lib.rs lines 115-123). -/
def DF.schemaPairs (df : DF) : List (String × String) :=
  df.cols.map (fun c => (c.name, c.dtype))

/-- Rust `value.trim().is_empty()`: the string is all whitespace. -/
def trim_is_empty (s : String) : Bool :=
  s.toList.all (fun c => c.isWhitespace)

/-- `format!("col_{}", idx + 1)` (lib.rs lines 160 and 170). -/
def synth_name (idx : Nat) : String :=
  "col_" ++ toString (idx + 1)

/-- Header-cell naming (lib.rs lines 157-161): a non-blank rendered cell keeps
its text, anything else gets the synthesized positional name. -/
def header_name (idx : Nat) (cell : XlsData) : String :=
  match excel_cell_to_string cell with
  | some v => if trim_is_empty v then synth_name idx else v
  | none => synth_name idx

/-- Headers from the (optional) first row (lib.rs lines 152-164). -/
def initial_headers (headerRow : Option (List XlsData)) : List String :=
  match headerRow with
  | some row => row.enum.map (fun p => header_name p.1 p.2)
  | none => []

/-- `headers.extend((start..row.len()).map(...))` (lib.rs line 170). -/
def extend_headers (headers : List String) (rowLen : Nat) : List String :=
  headers ++ (List.range' headers.length (rowLen - headers.length)).map synth_name

/-- One iteration of the data-row loop (lib.rs lines 167-177): grow headers
and columns when the row is longer, then append one (possibly null) value to
every column. -/
def push_row (acc : List String × List (List (Option String))) (row : List XlsData) :
    List String × List (List (Option String)) :=
  let headers := acc.1
  let columns := acc.2
  let grown :=
    if headers.length < row.length then
      (extend_headers headers row.length,
       columns ++ List.replicate (row.length - headers.length) [])
    else
      (headers, columns)
  (grown.1, grown.2.enum.map (fun p => p.2 ++ [(row[p.1]?).bind excel_cell_to_string]))

/-- The whole data-row loop, starting from one empty column per header. -/
def materialize_rows (headers : List String) (dataRows : List (List XlsData)) :
    List String × List (List (Option String)) :=
  dataRows.foldl push_row (headers, List.replicate headers.length [])

/-- An Excel column as a polars string series: empty cells are nulls. -/
def excel_column_values (vs : List (Option String)) : List AnyValue :=
  vs.map (fun v => match v with | none => .Null | some s => .StringV s)

/-- Height agreement check of polars `DataFrame::new`. -/
def heights_ok (named : List (String × List (Option String))) : Bool :=
  match named with
  | [] => true
  | (_, v) :: rest => rest.all (fun p => p.2.length == v.length)

/-- Column-name uniqueness check of polars `DataFrame::new`. -/
def names_unique : List String → Bool
  | [] => true
  | n :: rest => !(rest.contains n) && names_unique rest

/-- polars `DataFrame::new` on the excel string series (lib.rs line 185): it
rejects series of differing lengths and duplicate column names.  The exact
library error text is not modelled, only that an error is produced. -/
def dataframe_new (named : List (String × List (Option String))) : Except String DF :=
  if heights_ok named && names_unique (named.map Prod.fst) then
    .ok ⟨named.map (fun p => ⟨p.1, "String", excel_column_values p.2⟩)⟩
  else
    .error "could not create a new DataFrame"

/-- A calamine worksheet range.  calamine stores a range densely: every row
`Range::rows()` yields — the header row included — has exactly the range
width, with absent cells filled by `Data::Empty`.  The `rect` field records
that rectangularity, so the model admits exactly the row lists the library
can produce. -/
structure XRange where
  width : Nat
  rowsData : List (List XlsData)
  rect : ∀ r ∈ rowsData, r.length = width

/-- A calamine workbook: the stored sheet-name order plus the outcome of
`worksheet_range` per requested name. -/
structure Workbook where
  sheetNames : List String
  range : String → Except String XRange

/-- Mirror of `load_excel_sheet` (lib.rs lines 139-187).  `workbookR` is the
outcome of `open_workbook_auto`. -/
def load_excel_sheet (workbookR : Except String Workbook) (sheetName : Option String) :
    Except String (DF × List String × String) :=
  match workbookR with
  | .error e => .error e
  | .ok wb =>
    let sheets := wb.sheetNames
    match (match sheetName with | some s => some s | none => sheets.head?) with
    | none => .error "No sheets found in workbook"
    | some active =>
      match wb.range active with
      | .error e => .error e
      | .ok rng =>
        let allRows := rng.rowsData
        let hc := materialize_rows (initial_headers allRows.head?) allRows.tail
        match dataframe_new (hc.1.zip hc.2) with
        | .error e => .error e
        | .ok df => .ok (df, sheets, active)

/-- Split a character list at its LAST occurrence of `sep`: returns the parts
before and after it, or `none` when `sep` does not occur.  This is the shape
of Rust `Path` file-name/stem/extension splitting. -/
def splitLast (sep : Char) : List Char → Option (List Char × List Char)
  | [] => none
  | c :: cs =>
    match splitLast sep cs with
    | some (b, a) => some (c :: b, a)
    | none => if c = sep then some ([], cs) else none

/-- Rust `Path::extension` on a file name: the part after the last dot,
unless the part before it is empty (hidden files have no extension). -/
def extension_of (name : List Char) : Option (List Char) :=
  match splitLast '.' name with
  | some (b, a) => if b = [] then none else some a
  | none => none

/-- Rust `Path::file_stem` on a file name: the part before the last dot, or
the whole name when there is no extension. -/
def file_stem_of (name : List Char) : List Char :=
  match splitLast '.' name with
  | some (b, _) => if b = [] then name else b
  | none => name

/-- Rust `Path::file_name`: the component after the last slash. -/
def file_name_of (p : List Char) : List Char :=
  match splitLast '/' p with
  | some (_, a) => a
  | none => p

/-- Rust `to_ascii_lowercase` on the characters of an extension. -/
def lower_chars (cs : List Char) : List Char :=
  cs.map Char.toLower

/-- The fixed extension table of `detect_file_kind` (lib.rs lines 94-102). -/
def ext_to_kind (ext : String) : Option FileKind :=
  if ext = "parquet" ∨ ext = "parq" then some .Parquet
  else if ext = "csv" ∨ ext = "tsv" ∨ ext = "txt" then some .Csv
  else if ext = "jsonl" ∨ ext = "ndjson" then some .JsonLines
  else if ext = "json" then some .Json
  else if ext = "arrow" ∨ ext = "feather" ∨ ext = "ipc" then some .Arrow
  else if ext = "xlsx" ∨ ext = "xls" then some .Excel
  else none

/-- A lazy polars handle.  Its two oracle fields are the outcomes of the only
two operations the source performs on one: `schema()` (rendered to (name,
dtype) pairs) and the count-only `select([col("*").len()]).collect()`. -/
structure LazyFrame where
  schemaR : Except String (List (String × String))
  countCollectR : Except String DF

/-- `select([col("*").len()]).collect()` on an eagerly wrapped frame: one
UInt32 length cell per column. -/
def count_frame (df : DF) : DF :=
  ⟨df.cols.map (fun c => ⟨c.name, "UInt32", [.UInt32 c.values.length]⟩)⟩

/-- Rust `df.lazy()`: wrapping an eager frame gives a handle whose schema and
count queries always succeed and reflect the frame. -/
def DF.lazy (df : DF) : LazyFrame :=
  { schemaR := .ok df.schemaPairs, countCollectR := .ok (count_frame df) }

/-- Environment of one call: outcomes of every external (filesystem/library)
interaction the source can perform for the path at hand.  `firstBytes` is the
readable file content for the magic sniff (`none` = open/read error); `fsLen`
is `fs::metadata` length; `workbook` is `open_workbook_auto`; the reader
fields are the respective polars reader outcomes (the gz variants cover
decompress-then-parse); `execCollect` is `SQLContext::execute(..).collect()`. -/
structure Env where
  firstBytes : Option (List Nat)
  fsLen : Option Nat
  workbook : Except String Workbook
  parquetR : Except String LazyFrame
  csvR : Except String LazyFrame
  jsonLinesR : Except String DF
  jsonR : Except String DF
  arrowR : Except String DF
  gzCsvR : Except String DF
  gzJsonLinesR : Except String DF
  gzJsonR : Except String DF
  execCollect : String → LazyFrame → Except String DF

/-- Mirror of `gzip_magic` (lib.rs lines 69-74): open and read up to two
bytes; true only when two bytes were read and they are `0x1f 0x8b`. -/
def gzip_magic (env : Env) : Except String Bool :=
  match env.firstBytes with
  | none => .error "io error"
  | some bs => .ok (decide (2 ≤ bs.length) && decide (bs.take 2 = [0x1f, 0x8b]))

/-- Mirror of `detect_file_kind` (lib.rs lines 76-113). -/
def detect_file_kind (env : Env) (path : String) : Except String FileSpec :=
  let name := file_name_of path.toList
  let ext1 := lower_chars ((extension_of name).getD [])
  let stage :=
    if ext1 = "gz".toList then
      (true, lower_chars ((extension_of (file_stem_of name)).getD []))
    else
      (false, ext1)
  let extS := String.mk stage.2
  match ext_to_kind extS with
  | none => .error ("Unsupported file type: ." ++ extS)
  | some kind =>
    .ok { kind := kind,
          compressed := if stage.1 then true else (gzip_magic env).toOption.getD false,
          extension := extS }

theorem splitLast_of_not_mem {sep : Char} {ys : List Char} (h : sep ∉ ys) :
    splitLast sep ys = none := by
  induction ys with
  | nil => rfl
  | cons c cs ih =>
    have hc : ¬c = sep := by
      intro hcs
      exact h (hcs ▸ List.mem_cons_self c cs)
    have hcs : sep ∉ cs := fun hm => h (List.mem_cons_of_mem c hm)
    simp [splitLast, ih hcs, hc]

theorem splitLast_append (sep : Char) (xs : List Char) {ys : List Char} (h : sep ∉ ys) :
    splitLast sep (xs ++ sep :: ys) = some (xs, ys) := by
  induction xs with
  | nil => simp [splitLast, splitLast_of_not_mem h]
  | cons c cs ih => simp [splitLast, ih]

theorem string_toList_ne_nil {s : String} (h : s ≠ "") : s.toList ≠ [] := by
  intro hl
  apply h
  cases s with
  | mk data => cases data with
    | nil => rfl
    | cons c cs => cases hl

theorem toList_dot_append (stem ext : String) :
    (stem ++ "." ++ ext).toList = stem.toList ++ '.' :: ext.toList := by
  simp [String.toList, String.data_append]

theorem slash_not_mem_dot_append {stem ext : List Char}
    (hs : '/' ∉ stem) (he : '/' ∉ ext) : '/' ∉ stem ++ '.' :: ext := by
  intro h
  rcases List.mem_append.mp h with h1 | h2
  · exact hs h1
  · rcases List.mem_cons.mp h2 with h3 | h4
    · cases h3
    · exact he h4

theorem file_name_of_no_slash {p : List Char} (h : '/' ∉ p) : file_name_of p = p := by
  unfold file_name_of
  rw [splitLast_of_not_mem h]

theorem extension_of_dot_append (stem ext : List Char) (hstem : stem ≠ [])
    (hd : '.' ∉ ext) : extension_of (stem ++ '.' :: ext) = some ext := by
  unfold extension_of
  rw [splitLast_append '.' stem hd]
  simp [hstem]

theorem file_stem_of_dot_append (stem ext : List Char) (hstem : stem ≠ [])
    (hd : '.' ∉ ext) : file_stem_of (stem ++ '.' :: ext) = stem := by
  unfold file_stem_of
  rw [splitLast_append '.' stem hd]
  simp [hstem]

theorem ext_ne_gz_of_table {ext : String} {k : FileKind}
    (hk : ext_to_kind ext = some k) : ext.toList ≠ "gz".toList := by
  intro heq
  have hE : ext = "gz" := congrArg String.mk heq
  have hnone : ext_to_kind "gz" = none := by decide
  rw [hE, hnone] at hk
  cases hk

theorem detect_on_plain_path (env : Env) (stem ext : String)
    (hstem : stem ≠ "") (hs : '/' ∉ stem.toList) (he : '/' ∉ ext.toList)
    (hd : '.' ∉ ext.toList) (hgz : ext.toList ≠ "gz".toList)
    (hlow : lower_chars ext.toList = ext.toList) :
    detect_file_kind env (stem ++ "." ++ ext)
      = match ext_to_kind ext with
        | some kind => .ok ⟨kind, (gzip_magic env).toOption.getD false, ext⟩
        | none => .error ("Unsupported file type: ." ++ ext) := by
  have hmk : String.mk ext.toList = ext := rfl
  simp only [detect_file_kind, toList_dot_append,
    file_name_of_no_slash (slash_not_mem_dot_append hs he),
    extension_of_dot_append stem.toList ext.toList (string_toList_ne_nil hstem) hd,
    Option.getD_some, hlow, if_neg hgz, hmk]
  cases hek : ext_to_kind ext <;> simp [hek]

theorem detect_on_gz_path (env : Env) (stem ext : String)
    (hstem : stem ≠ "") (hs : '/' ∉ stem.toList) (he : '/' ∉ ext.toList)
    (hd : '.' ∉ ext.toList)
    (hlow : lower_chars ext.toList = ext.toList) :
    detect_file_kind env (stem ++ "." ++ ext ++ ".gz")
      = match ext_to_kind ext with
        | some kind => .ok ⟨kind, true, ext⟩
        | none => .error ("Unsupported file type: ." ++ ext) := by
  have hmk : String.mk ext.toList = ext := rfl
  have hlist : (stem ++ "." ++ ext ++ ".gz").toList
      = (stem.toList ++ '.' :: ext.toList) ++ '.' :: "gz".toList := by
    simp [String.toList, String.data_append]
  have hinner : stem.toList ++ '.' :: ext.toList ≠ [] := by
    intro h
    exact absurd (List.append_eq_nil.mp h).2 (by simp)
  have hslash : '/' ∉ (stem.toList ++ '.' :: ext.toList) ++ '.' :: "gz".toList :=
    slash_not_mem_dot_append (slash_not_mem_dot_append hs he) (by decide)
  have hlowgz : lower_chars "gz".toList = "gz".toList := by decide
  simp only [detect_file_kind, hlist, file_name_of_no_slash hslash,
    extension_of_dot_append (stem.toList ++ '.' :: ext.toList) "gz".toList hinner
      (by decide),
    file_stem_of_dot_append (stem.toList ++ '.' :: ext.toList) "gz".toList hinner
      (by decide),
    extension_of_dot_append stem.toList ext.toList (string_toList_ne_nil hstem) hd,
    Option.getD_some, hlow, hlowgz, if_pos rfl, hmk]
  cases hek : ext_to_kind ext <;> simp [hek]

/-- C3: for every path `stem.ext` (and `stem.ext.gz`) whose final extension is
already lowercase, dot-free and slash-free, the detector returns exactly the
fixed-table kind with `compressed` true when the `.gz` suffix is present and
otherwise equal to the gzip magic-byte sniff, and fails with an unsupported
message naming the extension when the extension is not in the table. -/
theorem c3_format_detector :
    (∀ (env : Env) (stem ext : String) (k : FileKind),
      stem ≠ "" → '/' ∉ stem.toList → '/' ∉ ext.toList → '.' ∉ ext.toList →
      lower_chars ext.toList = ext.toList → ext_to_kind ext = some k →
      detect_file_kind env (stem ++ "." ++ ext)
        = .ok ⟨k, (gzip_magic env).toOption.getD false, ext⟩) ∧
    (∀ (env : Env) (stem ext : String) (k : FileKind),
      stem ≠ "" → '/' ∉ stem.toList → '/' ∉ ext.toList → '.' ∉ ext.toList →
      lower_chars ext.toList = ext.toList → ext_to_kind ext = some k →
      detect_file_kind env (stem ++ "." ++ ext ++ ".gz")
        = .ok ⟨k, true, ext⟩) ∧
    (∀ (env : Env) (stem ext : String),
      stem ≠ "" → '/' ∉ stem.toList → '/' ∉ ext.toList → '.' ∉ ext.toList →
      lower_chars ext.toList = ext.toList → ext_to_kind ext = none → ext ≠ "gz" →
      detect_file_kind env (stem ++ "." ++ ext)
        = .error ("Unsupported file type: ." ++ ext)) := by
  refine ⟨?_, ?_, ?_⟩
  · intro env stem ext k h1 h2 h3 h4 h5 h6
    have := detect_on_plain_path env stem ext h1 h2 h3 h4 (ext_ne_gz_of_table h6) h5
    rw [h6] at this
    exact this
  · intro env stem ext k h1 h2 h3 h4 h5 h6
    have := detect_on_gz_path env stem ext h1 h2 h3 h4 h5
    rw [h6] at this
    exact this
  · intro env stem ext h1 h2 h3 h4 h5 h6 h7
    have hgz : ext.toList ≠ "gz".toList := by
      intro heq
      exact h7 (congrArg String.mk heq)
    have := detect_on_plain_path env stem ext h1 h2 h3 h4 hgz h5
    rw [h6] at this
    exact this

/-- Baseline environment: every external interaction fails. -/
def env0 : Env :=
  { firstBytes := none, fsLen := none, workbook := .error "not found",
    parquetR := .error "not found", csvR := .error "not found",
    jsonLinesR := .error "not found", jsonR := .error "not found",
    arrowR := .error "not found", gzCsvR := .error "not found",
    gzJsonLinesR := .error "not found", gzJsonR := .error "not found",
    execCollect := fun _ _ => .error "not found" }

/-- Witness for C3 at concrete paths. -/
theorem c3_witness :
    detect_file_kind env0 "data.csv" = .ok ⟨.Csv, false, "csv"⟩ ∧
    detect_file_kind env0 "data.csv.gz" = .ok ⟨.Csv, true, "csv"⟩ ∧
    detect_file_kind env0 "data.foo" = .error "Unsupported file type: .foo" :=
  ⟨c3_format_detector.1 env0 "data" "csv" .Csv (by decide) (by decide) (by decide)
      (by decide) (by decide) (by decide),
   c3_format_detector.2.1 env0 "data" "csv" .Csv (by decide) (by decide) (by decide)
      (by decide) (by decide) (by decide),
   c3_format_detector.2.2 env0 "data" "foo" (by decide) (by decide) (by decide)
      (by decide) (by decide) (by decide) (by decide)⟩

/-- Mirror of `struct FieldInfo` (lib.rs lines 39-43). -/
structure FieldInfo where
  name : String
  dtype : String

/-- Mirror of `schema_to_fields` (lib.rs lines 115-123). -/
def schema_to_fields (schema : List (String × String)) : List FieldInfo :=
  schema.map (fun p => ⟨p.1, p.2⟩)

/-- Mirror of `struct FileMetadataResponse` (lib.rs lines 45-54). -/
structure FileMetadataResponse where
  file_name : String
  file_path : String
  file_size : Nat
  row_count : Nat
  schema : List FieldInfo
  sheets : List String
  active_sheet : Option String

/-- Mirror of `struct AppState` (lib.rs lines 14-21). -/
structure AppState where
  source : Option LazyFrame
  file_path : Option String
  file_kind : Option FileKind
  sheets : List String
  active_sheet : Option String

/-- `AppState::default()`: the empty session. -/
def AppState.init : AppState :=
  ⟨none, none, none, [], none⟩

/-- Mirror of `load_lazy_frame` (lib.rs lines 189-271).  Reader configuration
(separator by extension, date parsing, decompression into memory) happens
inside the external readers, whose outcomes the `Env` oracles carry; the
dispatch over (kind, compressed) and the rejection of compressed formats
without an eager reader are the source's own logic. -/
def load_lazy_frame (env : Env) (spec : FileSpec) : Except String LazyFrame :=
  match spec.kind, spec.compressed with
  | .Parquet, false => env.parquetR
  | .Csv, false => env.csvR
  | .JsonLines, false => env.jsonLinesR.map DF.lazy
  | .Json, false => env.jsonR.map DF.lazy
  | .Arrow, false => env.arrowR.map DF.lazy
  | .Excel, false => (load_excel_sheet env.workbook none).map (fun x => x.1.lazy)
  | .Csv, true => env.gzCsvR.map DF.lazy
  | .JsonLines, true => env.gzJsonLinesR.map DF.lazy
  | .Json, true => env.gzJsonR.map DF.lazy
  | _, true => .error "Compressed file is not supported for this format"

/-- Rust integer cast `value as u64` from a signed value. -/
def u64_cast (v : Int) : Nat :=
  (v % (2 ^ 64 : Int)).toNat

/-- Mirror of `lazy_row_count` (lib.rs lines 273-289). -/
def lazy_row_count (lf : LazyFrame) : Except String Nat :=
  match lf.countCollectR with
  | .error e => .error e
  | .ok df =>
    match df.cols.head? with
    | none => .error "Missing count"
    | some series =>
      match series.values[0]? with
      | none => .error "index out of bounds"
      | some v =>
        .ok (match v with
          | .UInt64 n => n
          | .UInt32 n => n
          | .Int64 i => u64_cast i
          | .Int32 i => u64_cast i
          | _ => 0)

/-- `path.file_name().and_then(to_str).unwrap_or("data")` (lib.rs 345-349). -/
def file_name_or_default (path : String) : String :=
  let n := file_name_of path.toList
  if n = [] then "data" else String.mk n

/-- The branch of `scan_file_metadata` that produces the loaded handle, sheet
data, row count and schema (lib.rs lines 329-343). -/
def scan_core (env : Env) (spec : FileSpec) :
    Except String (LazyFrame × List String × Option String × Nat × List (String × String)) :=
  if spec.kind = .Excel then
    match load_excel_sheet env.workbook none with
    | .error e => .error e
    | .ok (df, sheets, active) =>
      .ok (df.lazy, sheets, some active, df.height, df.schemaPairs)
  else
    match load_lazy_frame env spec with
    | .error e => .error e
    | .ok lf =>
      match lf.schemaR with
      | .error e => .error e
      | .ok schema =>
        .ok (lf, [], none, (lazy_row_count lf).toOption.getD 0, schema)

/-- Mirror of `scan_file_metadata` (lib.rs lines 318-369).  The pair carries
the call result and the session state after the call: the source mutates the
state only after the whole pipeline succeeded (lines 361-366), so every error
path returns the incoming state unchanged. -/
def scan_file_metadata (env : Env) (path : String) (st : AppState) :
    Except String FileMetadataResponse × AppState :=
  match detect_file_kind env path with
  | .error e => (.error e, st)
  | .ok spec =>
    match scan_core env spec with
    | .error e => (.error e, st)
    | .ok (lf, sheets, active, rowCount, schema) =>
      let resp : FileMetadataResponse :=
        { file_name := file_name_or_default path,
          file_path := path,
          file_size := env.fsLen.getD 0,
          row_count := rowCount,
          schema := schema_to_fields schema,
          sheets := sheets,
          active_sheet := active }
      (.ok resp,
       { source := some lf, file_path := some path, file_kind := some spec.kind,
         sheets := sheets, active_sheet := active })

/-- Mirror of `select_excel_sheet` (lib.rs lines 371-409): guarded by the
loaded-path and Excel-kind checks, then re-materializes the requested sheet
and replaces only the table, sheet list and active sheet in the state. -/
def select_excel_sheet (env : Env) (sheet : String) (st : AppState) :
    Except String FileMetadataResponse × AppState :=
  match st.file_path with
  | none => (.error "No file loaded. Drag a file to begin.", st)
  | some path =>
    if st.file_kind ≠ some .Excel then
      (.error "Current file is not an Excel workbook.", st)
    else
      match load_excel_sheet env.workbook (some sheet) with
      | .error e => (.error e, st)
      | .ok (df, sheets, active) =>
        let resp : FileMetadataResponse :=
          { file_name := file_name_or_default path,
            file_path := path,
            file_size := env.fsLen.getD 0,
            row_count := df.height,
            schema := schema_to_fields df.schemaPairs,
            sheets := sheets,
            active_sheet := some active }
        (.ok resp,
         { st with source := some df.lazy, sheets := sheets,
                   active_sheet := some active })

/-- Mirror of `struct ColumnInfo` (lib.rs lines 56-60). -/
structure ColumnInfo where
  name : String
  dtype : String

/-- Mirror of `struct QueryResult` (lib.rs lines 62-67). -/
structure QueryResult where
  columns : List ColumnInfo
  rows : List (List JValue)
  row_count : Nat

/-- The inner loop of `exec_sql` (lib.rs lines 449-453): one coerced scalar
per column at a fixed row index, aborting on a failed `Series::get`. -/
def build_row : List Column → Nat → Except String (List JValue)
  | [], _ => .ok []
  | c :: cs, i =>
    match c.get i with
    | .error e => .error e
    | .ok v =>
      match build_row cs i with
      | .error e => .error e
      | .ok vs => .ok (any_value_to_json v :: vs)

/-- The outer loop of `exec_sql` (lib.rs lines 447-455) over row indices. -/
def build_rows_aux (cols : List Column) : List Nat → Except String (List (List JValue))
  | [] => .ok []
  | i :: is =>
    match build_row cols i with
    | .error e => .error e
    | .ok r =>
      match build_rows_aux cols is with
      | .error e => .error e
      | .ok rs => .ok (r :: rs)

/-- Rows of a materialized frame in `exec_sql` order. -/
def build_rows (df : DF) : Except String (List (List JValue)) :=
  build_rows_aux df.cols (List.range df.height)

/-- `exec_sql` column metadata from the materialized result (lib.rs 437-444). -/
def query_columns (df : DF) : List ColumnInfo :=
  df.cols.map (fun c => ⟨c.name, c.dtype⟩)

/-- Mirror of `exec_sql` (lib.rs lines 412-462): execute-and-collect through
the engine oracle, then truncate with `head`, then convert. -/
def exec_sql (env : Env) (sql : String) (maxRows : Option Nat) (st : AppState) :
    Except String QueryResult :=
  match st.source with
  | none => .error "No file loaded. Drag a file to begin."
  | some src =>
    match env.execCollect sql src with
    | .error e => .error e
    | .ok df0 =>
      let df := match maxRows with | some n => df0.head n | none => df0
      match build_rows df with
      | .error e => .error e
      | .ok rows => .ok ⟨query_columns df, rows, df.height⟩

/-- One session-level operation with its environment (the outcomes of the
external interactions of that one call). -/
inductive Op
  | load (env : Env) (path : String)
  | selectSheet (env : Env) (sheet : String)

/-- State transition of one operation (result discarded). -/
def step (st : AppState) : Op → AppState
  | .load env path => (scan_file_metadata env path st).2
  | .selectSheet env sheet => (select_excel_sheet env sheet st).2

/-- Run a sequence of operations from a state. -/
def run_ops (st : AppState) : List Op → AppState
  | [] => st
  | op :: ops => run_ops (step st op) ops

theorem snd_mem_of_mem_enum {α : Type} {p : Nat × α} {l : List α}
    (h : p ∈ l.enum) : p.2 ∈ l :=
  List.snd_mem_of_mem_enum h

theorem materialize_fold_inv (dataRows : List (List XlsData)) :
    ∀ (headers : List String) (cols : List (List (Option String))) (m : Nat),
    (∀ r ∈ dataRows, r.length ≤ headers.length) →
    cols.length = headers.length →
    (∀ c ∈ cols, c.length = m) →
    (dataRows.foldl push_row (headers, cols)).1 = headers ∧
    (dataRows.foldl push_row (headers, cols)).2.length = headers.length ∧
    ∀ c ∈ (dataRows.foldl push_row (headers, cols)).2,
      c.length = m + dataRows.length := by
  induction dataRows with
  | nil =>
    intro headers cols m _ hlen hc
    exact ⟨rfl, hlen, by simpa using hc⟩
  | cons row rest ih =>
    intro headers cols m hr hlen hc
    have hrow : row.length ≤ headers.length := hr row (List.mem_cons_self row rest)
    have hpush : push_row (headers, cols) row
        = (headers, cols.enum.map
            (fun p => p.2 ++ [(row[p.1]?).bind excel_cell_to_string])) := by
      simp only [push_row, if_neg (by omega : ¬headers.length < row.length)]
    rw [List.foldl_cons, hpush]
    have hlen2 : (cols.enum.map
        (fun p => p.2 ++ [(row[p.1]?).bind excel_cell_to_string])).length
          = headers.length := by
      simp [hlen]
    have hc2 : ∀ c ∈ cols.enum.map
        (fun p => p.2 ++ [(row[p.1]?).bind excel_cell_to_string]),
        c.length = m + 1 := by
      intro c hcm
      obtain ⟨p, hp, hpe⟩ := List.mem_map.mp hcm
      rw [← hpe]
      simp [hc p.2 (snd_mem_of_mem_enum hp)]
    have hmain := ih headers _ (m + 1)
      (fun r hrr => hr r (List.mem_cons_of_mem row hrr)) hlen2 hc2
    refine ⟨hmain.1, hmain.2.1, fun c hcm => ?_⟩
    have hcl := hmain.2.2 c hcm
    rw [hcl, List.length_cons]
    omega

/-- Concrete workbook as calamine delivers it for the worksheet with cells
A1 = a, A2 = 1, A3 = 1, B3 = 2: the range is dense with width 2, so the
header row and the first data row carry a padding `Empty` in column B. -/
def c1_workbook : Workbook :=
  { sheetNames := ["Sheet1"],
    range := fun name =>
      if name = "Sheet1" then
        .ok ⟨2, [[.Str "a", .Empty], [.Str "1", .Empty], [.Str "1", .Str "2"]],
             by decide⟩
      else
        .error "sheet not found" }

/-- C1: calamine ranges are dense and rectangular, so every row the loop sees
— header row included — has the range width, and the claim's scenario of a
user-visible data row longer than the header row arrives as padding `Empty`
cells in the header row (which the header pass replaces with synthesized
`col_<k+1>` names) and in the shorter prior rows (which coerce to nulls).
Part one: for every header list and every run of data rows no longer than it
(what rectangular ranges guarantee), the loop keeps the headers, keeps one
column per header, and accumulates exactly one value per data row in every
column, so the table is rectangular.  Part two: on the padded worksheet with
header `[a]`, data rows `[1]` and `[1, 2]`, materialization succeeds with the
synthesized trailing name `col_2` and a null backfilling the shorter prior
row. -/
theorem c1_excel_rectangular_materialization :
    (∀ (headers : List String) (dataRows : List (List XlsData)),
      (∀ r ∈ dataRows, r.length ≤ headers.length) →
      (materialize_rows headers dataRows).1 = headers ∧
      (materialize_rows headers dataRows).2.length = headers.length ∧
      ∀ c ∈ (materialize_rows headers dataRows).2, c.length = dataRows.length) ∧
    load_excel_sheet (.ok c1_workbook) none
      = .ok (⟨[⟨"a", "String", [.StringV "1", .StringV "1"]⟩,
               ⟨"col_2", "String", [.Null, .StringV "2"]⟩]⟩,
             ["Sheet1"], "Sheet1") := by
  constructor
  · intro headers dataRows hr
    have hmain := materialize_fold_inv dataRows headers
      (List.replicate headers.length []) 0 hr (List.length_replicate _ _)
      (fun c hcm => by rw [List.eq_of_mem_replicate hcm]; rfl)
    exact ⟨hmain.1, hmain.2.1, fun c hcm => by simpa using hmain.2.2 c hcm⟩
  · rfl

/-- Witness for C1 at the padded worksheet's own headers and data rows:
headers kept, two columns, and both columns hold one value per data row. -/
theorem c1_witness :
    (materialize_rows ["a", "col_2"]
        [[.Str "1", .Empty], [.Str "1", .Str "2"]]).1 = ["a", "col_2"] ∧
    (materialize_rows ["a", "col_2"]
        [[.Str "1", .Empty], [.Str "1", .Str "2"]]).2.length = 2 ∧
    ∀ c ∈ (materialize_rows ["a", "col_2"]
        [[.Str "1", .Empty], [.Str "1", .Str "2"]]).2, c.length = 2 :=
  c1_excel_rectangular_materialization.1 ["a", "col_2"]
    [[.Str "1", .Empty], [.Str "1", .Str "2"]] (by decide)

/-- C2: a failed load (at format detection, ingestion or schema resolution)
returns the session state exactly as it was before the call: the source
commits new state only after the whole pipeline has succeeded. -/
theorem c2_failed_load_preserves_state (env : Env) (path : String) (st : AppState)
    (e : String) (h : (scan_file_metadata env path st).1 = .error e) :
    (scan_file_metadata env path st).2 = st := by
  unfold scan_file_metadata at h ⊢
  cases hd : detect_file_kind env path with
  | error e2 => simp [hd]
  | ok spec =>
    simp only [hd] at h ⊢
    cases hc : scan_core env spec with
    | error e2 => simp [hc]
    | ok val =>
      obtain ⟨lf, sheets, active, rowCount, schema⟩ := val
      simp only [hc] at h
      cases h

/-- Prior session state used by witnesses: a loaded CSV session. -/
def st_csv : AppState :=
  ⟨none, some "old.csv", some .Csv, [], none⟩

/-- Witness for C2: an unsupported-extension load against a loaded session. -/
theorem c2_witness :
    (scan_file_metadata env0 "data.foo" st_csv).2 = st_csv :=
  c2_failed_load_preserves_state env0 "data.foo" st_csv
    "Unsupported file type: .foo" rfl

/-- C6: switching sheets with no file loaded fails with the no-source message,
and with a loaded non-Excel file fails with the not-Excel message; in both
cases the state is untouched and the result does not depend on the workbook
environment, so no materialization is attempted. -/
theorem c6_select_sheet_guards :
    (∀ (env : Env) (sheet : String) (st : AppState), st.file_path = none →
      select_excel_sheet env sheet st
        = (.error "No file loaded. Drag a file to begin.", st)) ∧
    (∀ (env : Env) (sheet : String) (st : AppState) (p : String),
      st.file_path = some p → st.file_kind ≠ some .Excel →
      select_excel_sheet env sheet st
        = (.error "Current file is not an Excel workbook.", st)) := by
  constructor
  · intro env sheet st hp
    unfold select_excel_sheet
    rw [hp]
  · intro env sheet st p hp hk
    unfold select_excel_sheet
    simp only [hp]
    rw [if_pos hk]

/-- Witness for C6 at the empty session and at a loaded CSV session. -/
theorem c6_witness :
    select_excel_sheet env0 "Sheet2" AppState.init
      = (.error "No file loaded. Drag a file to begin.", AppState.init) ∧
    select_excel_sheet env0 "Sheet2" st_csv
      = (.error "Current file is not an Excel workbook.", st_csv) :=
  ⟨c6_select_sheet_guards.1 env0 "Sheet2" AppState.init rfl,
   c6_select_sheet_guards.2 env0 "Sheet2" st_csv "old.csv" rfl (by decide)⟩

/-- C9: when the preconditions of a sheet switch pass but the materialization
itself fails (missing sheet, unreadable workbook), the whole session state is
returned unchanged. -/
theorem c9_failed_select_preserves_state (env : Env) (sheet : String)
    (st : AppState) (p : String) (e : String) (hp : st.file_path = some p)
    (hk : st.file_kind = some .Excel)
    (hl : load_excel_sheet env.workbook (some sheet) = .error e) :
    select_excel_sheet env sheet st = (.error e, st) := by
  unfold select_excel_sheet
  simp only [hp]
  rw [if_neg (by simp [hk])]
  simp only [hl]

/-- Loaded Excel session used by witnesses. -/
def st_xlsx : AppState :=
  ⟨none, some "book.xlsx", some .Excel, ["Sheet1"], some "Sheet1"⟩

/-- Witness for C9: the workbook can no longer be opened. -/
theorem c9_witness :
    select_excel_sheet { env0 with workbook := .error "workbook gone" }
        "Sheet1" st_xlsx
      = (.error "workbook gone", st_xlsx) :=
  c9_failed_select_preserves_state { env0 with workbook := .error "workbook gone" }
    "Sheet1" st_xlsx "book.xlsx" "workbook gone" rfl rfl rfl

/-- The C7 invariant over session states. -/
def session_invariant (st : AppState) : Prop :=
  (st.file_kind ≠ some .Excel → st.sheets = [] ∧ st.active_sheet = none) ∧
  (st.file_kind = some .Excel → st.active_sheet ≠ none)

theorem scan_core_shape (env : Env) (spec : FileSpec) (lf : LazyFrame)
    (sheets : List String) (active : Option String) (n : Nat)
    (sch : List (String × String))
    (h : scan_core env spec = .ok (lf, sheets, active, n, sch)) :
    (spec.kind = .Excel → active ≠ none) ∧
    (spec.kind ≠ .Excel → sheets = [] ∧ active = none) := by
  unfold scan_core at h
  by_cases hk : spec.kind = .Excel
  · rw [if_pos hk] at h
    cases hl : load_excel_sheet env.workbook none with
    | error e => exact Except.noConfusion (hl ▸ h)
    | ok val =>
      obtain ⟨df, sh, act⟩ := val
      simp only [hl, Except.ok.injEq, Prod.mk.injEq] at h
      refine ⟨fun _ => ?_, fun hne => absurd hk hne⟩
      rw [← h.2.2.1]
      simp
  · rw [if_neg hk] at h
    cases hl : load_lazy_frame env spec with
    | error e => exact Except.noConfusion (hl ▸ h)
    | ok lf2 =>
      simp only [hl] at h
      cases hsch : lf2.schemaR with
      | error e => exact Except.noConfusion (hsch ▸ h)
      | ok sch2 =>
        simp only [hsch, Except.ok.injEq, Prod.mk.injEq] at h
        exact ⟨fun hex => absurd hex hk, fun _ => ⟨h.2.1.symm, h.2.2.1.symm⟩⟩

theorem step_load_invariant (env : Env) (path : String) (st : AppState)
    (hinv : session_invariant st) :
    session_invariant ((scan_file_metadata env path st).2) := by
  cases hd : detect_file_kind env path with
  | error e =>
    simp only [scan_file_metadata, hd]
    exact hinv
  | ok spec =>
    cases hc : scan_core env spec with
    | error e =>
      simp only [scan_file_metadata, hd, hc]
      exact hinv
    | ok val =>
      obtain ⟨lf, sheets, active, rowCount, schema⟩ := val
      have hshape := scan_core_shape env spec lf sheets active rowCount schema hc
      simp only [scan_file_metadata, hd, hc]
      refine ⟨fun hkind => ?_, fun hkind => ?_⟩
      · exact hshape.2 (fun hx => hkind (by rw [hx]))
      · exact hshape.1 (Option.some.inj hkind)

theorem step_select_invariant (env : Env) (sheet : String) (st : AppState)
    (hinv : session_invariant st) :
    session_invariant ((select_excel_sheet env sheet st).2) := by
  cases hp : st.file_path with
  | none =>
    simp only [select_excel_sheet, hp]
    exact hinv
  | some path =>
    by_cases hk : st.file_kind ≠ some .Excel
    · simp only [select_excel_sheet, hp, if_pos hk]
      exact hinv
    · have hnk : ¬st.file_kind ≠ some .Excel := hk
      push_neg at hk
      cases hl : load_excel_sheet env.workbook (some sheet) with
      | error e =>
        simp only [select_excel_sheet, hp, if_neg hnk, hl]
        exact hinv
      | ok val =>
        obtain ⟨df, sheets, active⟩ := val
        simp only [select_excel_sheet, hp, if_neg hnk, hl]
        exact ⟨fun hkind => absurd hk hkind, fun _ => by simp⟩

theorem run_ops_invariant : ∀ (ops : List Op) (st : AppState),
    session_invariant st → session_invariant (run_ops st ops) := by
  intro ops
  induction ops with
  | nil => intro st hinv; exact hinv
  | cons op rest ih =>
    intro st hinv
    cases op with
    | load env path => exact ih _ (step_load_invariant env path st hinv)
    | selectSheet env sheet => exact ih _ (step_select_invariant env sheet st hinv)

/-- C7: in every session state reachable from the empty initial state by any
sequence of (successful or failed) loads and sheet switches, a non-Excel (or
absent) recorded kind comes with an empty sheet list and no active sheet, and
an Excel recorded kind always has an active sheet. -/
theorem c7_session_sheet_invariant (ops : List Op) :
    session_invariant (run_ops AppState.init ops) :=
  run_ops_invariant ops AppState.init
    ⟨fun _ => ⟨rfl, rfl⟩, fun h => Option.noConfusion h⟩

theorem scan_core_lazy_ok (env : Env) (spec : FileSpec) (lf : LazyFrame)
    (sch : List (String × String)) (hk : spec.kind ≠ .Excel)
    (hl : load_lazy_frame env spec = .ok lf) (hsch : lf.schemaR = .ok sch) :
    scan_core env spec
      = .ok (lf, [], none, (lazy_row_count lf).toOption.getD 0, sch) := by
  simp only [scan_core, if_neg hk, hl, hsch]

theorem scan_core_excel_ok (env : Env) (spec : FileSpec) (df : DF)
    (sheets : List String) (active : String) (hk : spec.kind = .Excel)
    (hl : load_excel_sheet env.workbook none = .ok (df, sheets, active)) :
    scan_core env spec
      = .ok (df.lazy, sheets, some active, df.height, df.schemaPairs) := by
  simp only [scan_core, if_pos hk, hl]

theorem scan_ok_of_core (env : Env) (path : String) (st : AppState)
    (spec : FileSpec) (lf : LazyFrame) (sheets : List String)
    (active : Option String) (n : Nat) (sch : List (String × String))
    (hd : detect_file_kind env path = .ok spec)
    (hc : scan_core env spec = .ok (lf, sheets, active, n, sch)) :
    (scan_file_metadata env path st).1 = .ok
      { file_name := file_name_or_default path, file_path := path,
        file_size := env.fsLen.getD 0, row_count := n,
        schema := schema_to_fields sch, sheets := sheets,
        active_sheet := active } := by
  simp only [scan_file_metadata, hd, hc]

/-- C5: on a non-Excel load whose lazy handle and schema both resolve, a
failing count-only aggregation does not fail the load — the response reports
zero rows; on a successful Excel load the reported row count is the
materialized table's height, never the fail-soft fallback. -/
theorem c5_row_count_policy :
    (∀ (env : Env) (path : String) (st : AppState) (spec : FileSpec)
        (lf : LazyFrame) (sch : List (String × String)) (e : String),
      detect_file_kind env path = .ok spec → spec.kind ≠ .Excel →
      load_lazy_frame env spec = .ok lf → lf.schemaR = .ok sch →
      lazy_row_count lf = .error e →
      ∃ resp, (scan_file_metadata env path st).1 = .ok resp ∧
        resp.row_count = 0) ∧
    (∀ (env : Env) (path : String) (st : AppState) (spec : FileSpec) (df : DF)
        (sheets : List String) (active : String),
      detect_file_kind env path = .ok spec → spec.kind = .Excel →
      load_excel_sheet env.workbook none = .ok (df, sheets, active) →
      ∃ resp, (scan_file_metadata env path st).1 = .ok resp ∧
        resp.row_count = df.height) := by
  constructor
  · intro env path st spec lf sch e hd hk hl hsch hcnt
    refine ⟨_, scan_ok_of_core env path st spec lf [] none _ sch hd
      (scan_core_lazy_ok env spec lf sch hk hl hsch), ?_⟩
    simp [hcnt, Except.toOption]
  · intro env path st spec df sheets active hd hk hl
    exact ⟨_, scan_ok_of_core env path st spec df.lazy sheets (some active)
      df.height df.schemaPairs hd
      (scan_core_excel_ok env spec df sheets active hk hl), rfl⟩

/-- Lazy handle whose schema resolves but whose count aggregation fails. -/
def lf_c5 : LazyFrame :=
  ⟨.ok [("a", "Int64")], .error "count failed"⟩

/-- Workbook with one sheet, one header row and one data row. -/
def wb_one : Workbook :=
  ⟨["S1"], fun _ => .ok ⟨1, [[.Str "h"], [.Str "v"]], by decide⟩⟩

/-- Witness for C5: a CSV whose count query fails still loads with zero rows;
a one-data-row Excel workbook reports row count 1. -/
theorem c5_witness :
    (∃ resp, (scan_file_metadata { env0 with csvR := .ok lf_c5 } "d.csv"
        AppState.init).1 = .ok resp ∧ resp.row_count = 0) ∧
    (∃ resp, (scan_file_metadata { env0 with workbook := .ok wb_one } "book.xlsx"
        AppState.init).1 = .ok resp ∧ resp.row_count = 1) :=
  ⟨c5_row_count_policy.1 { env0 with csvR := .ok lf_c5 } "d.csv" AppState.init
      ⟨.Csv, false, "csv"⟩ lf_c5 [("a", "Int64")] "count failed"
      rfl (by decide) rfl rfl rfl,
   c5_row_count_policy.2 { env0 with workbook := .ok wb_one } "book.xlsx"
      AppState.init ⟨.Excel, false, "xlsx"⟩ ⟨[⟨"h", "String", [.StringV "v"]⟩]⟩
      ["S1"] "S1" rfl rfl rfl⟩

theorem build_row_length (cols : List Column) (i : Nat) (r : List JValue)
    (h : build_row cols i = .ok r) : r.length = cols.length := by
  induction cols generalizing r with
  | nil =>
    simp only [build_row, Except.ok.injEq] at h
    rw [← h]
    rfl
  | cons c cs ih =>
    unfold build_row at h
    cases hg : c.get i with
    | error e => exact Except.noConfusion (hg ▸ h)
    | ok v =>
      simp only [hg] at h
      cases hb : build_row cs i with
      | error e => exact Except.noConfusion (hb ▸ h)
      | ok vs =>
        simp only [hb, Except.ok.injEq] at h
        rw [← h]
        simp [ih vs hb]

theorem build_rows_aux_spec (cols : List Column) (idxs : List Nat)
    (rs : List (List JValue)) (h : build_rows_aux cols idxs = .ok rs) :
    rs.length = idxs.length ∧ ∀ r ∈ rs, r.length = cols.length := by
  induction idxs generalizing rs with
  | nil =>
    simp only [build_rows_aux, Except.ok.injEq] at h
    rw [← h]
    exact ⟨rfl, by simp⟩
  | cons i is ih =>
    unfold build_rows_aux at h
    cases hr : build_row cols i with
    | error e => exact Except.noConfusion (hr ▸ h)
    | ok r =>
      simp only [hr] at h
      cases hs : build_rows_aux cols is with
      | error e => exact Except.noConfusion (hs ▸ h)
      | ok rs2 =>
        simp only [hs, Except.ok.injEq] at h
        obtain ⟨h1, h2⟩ := ih rs2 hs
        rw [← h]
        refine ⟨by simp [h1], ?_⟩
        intro x hx
        rcases List.mem_cons.mp hx with hx1 | hx2
        · rw [hx1]
          exact build_row_length cols i r hr
        · exact h2 x hx2

/-- C10: a successful query result is internally consistent — its row count
equals the number of returned rows and every row has one scalar per reported
column. -/
theorem c10_query_result_consistent (env : Env) (sql : String)
    (maxRows : Option Nat) (st : AppState) (res : QueryResult)
    (h : exec_sql env sql maxRows st = .ok res) :
    res.row_count = res.rows.length ∧
    ∀ r ∈ res.rows, r.length = res.columns.length := by
  unfold exec_sql at h
  cases hs : st.source with
  | none => exact Except.noConfusion (hs ▸ h)
  | some src =>
    simp only [hs] at h
    cases he : env.execCollect sql src with
    | error e => exact Except.noConfusion (he ▸ h)
    | ok df0 =>
      simp only [he] at h
      generalize (match maxRows with | some n => df0.head n | none => df0) = df at h
      cases hb : build_rows df with
      | error e => exact Except.noConfusion (hb ▸ h)
      | ok rows =>
        simp only [hb, Except.ok.injEq] at h
        obtain ⟨h1, h2⟩ := build_rows_aux_spec df.cols (List.range df.height) rows hb
        rw [← h]
        constructor
        · rw [h1, List.length_range]
        · intro r hr
          rw [h2 r hr]
          simp [query_columns]

/-- Two-column frame used by witnesses. -/
def df_two : DF :=
  ⟨[⟨"a", "Int64", [.Int64 1, .Int64 2]⟩,
    ⟨"b", "String", [.StringV "x", .StringV "y"]⟩]⟩

/-- Loaded session whose lazy source is irrelevant to `exec_sql` beyond
being present (the engine outcome is the `execCollect` oracle). -/
def st_loaded : AppState :=
  ⟨some (DF.lazy ⟨[]⟩), some "d.csv", some .Csv, [], none⟩

/-- The query result of `exec_sql` on `df_two` without a row limit. -/
def res_two : QueryResult :=
  { columns := [⟨"a", "Int64"⟩, ⟨"b", "String"⟩],
    rows := [[.NumberV (.PosInt 1), .StrV "x"],
             [.NumberV (.PosInt 2), .StrV "y"]],
    row_count := 2 }

/-- Witness for C10 on a concrete two-column, two-row result. -/
theorem c10_witness :
    res_two.row_count = res_two.rows.length ∧
    ∀ r ∈ res_two.rows, r.length = res_two.columns.length :=
  c10_query_result_consistent { env0 with execCollect := fun _ _ => .ok df_two }
    "SELECT * FROM source" none st_loaded res_two rfl

theorem build_row_take (cols : List Column) (n i : Nat) (hi : i < n) :
    build_row (cols.map (fun c => ⟨c.name, c.dtype, c.values.take n⟩)) i
      = build_row cols i := by
  induction cols with
  | nil => rfl
  | cons c cs ih =>
    simp only [List.map_cons]
    unfold build_row
    have hg : Column.get ⟨c.name, c.dtype, c.values.take n⟩ i = c.get i := by
      unfold Column.get
      simp [List.getElem?_take, hi]
    rw [hg, ih]

theorem build_rows_aux_congr (cols1 cols2 : List Column) (idxs : List Nat)
    (h : ∀ i ∈ idxs, build_row cols1 i = build_row cols2 i) :
    build_rows_aux cols1 idxs = build_rows_aux cols2 idxs := by
  induction idxs with
  | nil => rfl
  | cons i is ih =>
    unfold build_rows_aux
    rw [h i (List.mem_cons_self i is),
       ih (fun j hj => h j (List.mem_cons_of_mem i hj))]

theorem build_rows_aux_take (cols : List Column) (idxs : List Nat)
    (rs : List (List JValue)) (n : Nat) (h : build_rows_aux cols idxs = .ok rs) :
    build_rows_aux cols (idxs.take n) = .ok (rs.take n) := by
  induction idxs generalizing rs n with
  | nil =>
    simp only [build_rows_aux, Except.ok.injEq] at h
    simp [build_rows_aux, ← h]
  | cons i is ih =>
    unfold build_rows_aux at h
    cases hr : build_row cols i with
    | error e => exact Except.noConfusion (hr ▸ h)
    | ok r =>
      simp only [hr] at h
      cases hs : build_rows_aux cols is with
      | error e => exact Except.noConfusion (hs ▸ h)
      | ok rs2 =>
        simp only [hs, Except.ok.injEq] at h
        cases n with
        | zero => simp [build_rows_aux]
        | succ m =>
          simp only [List.take_succ_cons, ← h]
          unfold build_rows_aux
          rw [hr, ih rs2 m hs]

theorem head_height (df : DF) (n : Nat) : (df.head n).height = min n df.height := by
  cases df with
  | mk cols =>
    cases cols with
    | nil => simp [DF.head, DF.height]
    | cons c cs => simp [DF.head, DF.height, List.length_take]

theorem head_query_columns (df : DF) (n : Nat) :
    query_columns (df.head n) = query_columns df := by
  simp [query_columns, DF.head, List.map_map]

/-- C4: with a row limit, a successful query returns exactly the prefix of
the fully executed result — same columns, the first `n` rows in execution
order, and the truncated height — never a sample or a re-sort. -/
theorem c4_row_limit_is_prefix (env : Env) (sql : String) (n : Nat)
    (st : AppState) (src : LazyFrame) (df : DF) (allRows : List (List JValue))
    (hs : st.source = some src) (he : env.execCollect sql src = .ok df)
    (hr : build_rows df = .ok allRows) :
    exec_sql env sql (some n) st
      = .ok ⟨query_columns df, allRows.take n, min n df.height⟩ := by
  have hrows : build_rows (df.head n) = .ok (allRows.take n) := by
    show build_rows_aux (df.head n).cols (List.range (df.head n).height) = _
    rw [head_height df n]
    have h1 : build_rows_aux (df.head n).cols (List.range (min n df.height))
        = build_rows_aux df.cols (List.range (min n df.height)) := by
      apply build_rows_aux_congr
      intro i hi
      have hin : i < n :=
        lt_of_lt_of_le (List.mem_range.mp hi) (min_le_left n df.height)
      exact build_row_take df.cols n i hin
    rw [h1, ← List.take_range n df.height]
    exact build_rows_aux_take df.cols (List.range df.height) allRows n hr
  simp only [exec_sql, hs, he, hrows, head_query_columns, head_height]

/-- Five-row frame used by the C4 witness. -/
def df_five : DF :=
  ⟨[⟨"a", "Int64", [.Int64 1, .Int64 2, .Int64 3, .Int64 4, .Int64 5]⟩]⟩

/-- The full converted rows of `df_five`. -/
def rows_five : List (List JValue) :=
  [[.NumberV (.PosInt 1)], [.NumberV (.PosInt 2)], [.NumberV (.PosInt 3)],
   [.NumberV (.PosInt 4)], [.NumberV (.PosInt 5)]]

/-- Witness for C4: limit 2 on a 5-row result yields exactly the first two
rows in original order. -/
theorem c4_witness :
    exec_sql { env0 with execCollect := fun _ _ => .ok df_five }
        "SELECT * FROM source" (some 2) st_loaded
      = .ok ⟨[⟨"a", "Int64"⟩],
             [[.NumberV (.PosInt 1)], [.NumberV (.PosInt 2)]], 2⟩ :=
  c4_row_limit_is_prefix { env0 with execCollect := fun _ _ => .ok df_five }
    "SELECT * FROM source" 2 st_loaded (DF.lazy ⟨[]⟩) df_five rows_five
    rfl rfl rfl

/-- C8: value coercion maps a null cell to the null scalar, and maps every
unsigned 64-bit value — including values above the signed 63-bit range — to a
JSON number whose exact integer reading equals the value: serde_json stores
unsigned 64-bit integers exactly, so nothing wraps or truncates. -/
theorem c8_null_and_u64_exact (n : Nat) (h : n < 2 ^ 64) :
    any_value_to_json .Null = .Null ∧
    ∃ j : JNumber, any_value_to_json (.UInt64 n) = .NumberV j ∧
      j.toInt? = some (n : Int) :=
  ⟨rfl, .PosInt n, rfl, rfl⟩

/-- Witness for C8 at `2 ^ 63`, one above the signed 63-bit range. -/
theorem c8_witness :
    (2 ^ 63 : Nat) < 2 ^ 64 ∧
    (any_value_to_json .Null = .Null ∧
     ∃ j : JNumber, any_value_to_json (.UInt64 (2 ^ 63)) = .NumberV j ∧
       j.toInt? = some ((2 ^ 63 : Nat) : Int)) :=
  ⟨by norm_num, c8_null_and_u64_exact (2 ^ 63) (by norm_num)⟩

end Lakedrop
